import Mathlib

/-!
Verification of the summarization core in `src/services/summarization_service.py`.

The Python module is shallowly embedded: its pure string transforms become Lean
functions on `String` / `List Char`; the external collaborators (the LLM
completion client, the semantic chunker, the tiktoken length function, the
lingua language detector, and the Unicode character classes used by one regex)
become fields of an `Env` record; Python exceptions become `Option`/`Except`
values.  Each definition carries a note naming the source lines it embeds.
-/

set_option maxRecDepth 10000

/-- Embeds `SummarizationLevelEnum` (summarization_service.py lines 28-31). -/
inductive SummarizationLevelEnum where
  | CONCISE
  | MEDIUM
  | DETAILED
deriving DecidableEq, Repr

/-- Embeds the lingua `Language` values that the source inspects
(ENGLISH, CZECH, SLOVAK); every other detector language is represented by
`OTHER` with its name. -/
inductive LinguaLanguage where
  | ENGLISH
  | CZECH
  | SLOVAK
  | OTHER (name : String)
deriving DecidableEq, Repr

/-- A JSON value appearing under a key of a model response: the source only
ever reads strings (`summary` in refinement) and lists of strings
(`summary` in chunk summarization); other JSON shapes are out of scope of the
claims. -/
inductive JVal where
  | jstr (s : String)
  | jlist (l : List String)
deriving DecidableEq, Repr

/-- The parsed JSON object of one model response, as accessed by the source:
only the keys `title` and `summary` are ever read; a missing key is `none`
(Python `KeyError` on access). -/
structure JObj where
  title : Option String
  summary : Option JVal
deriving DecidableEq, Repr

/-- One chat message, embedding the Python dicts
`{"role": ..., "content": ...}` (lines 247-250, 272-275). -/
structure Message where
  role : String
  content : String
deriving DecidableEq, Repr

/-- The external collaborators of the core, as functions:
* `oracle` — the completion client plus `json.loads` (`_acomplete`, lines
  158-160); `none` models an invalid-JSON response or a client error;
* `chunker` — `semchunk.chunkerify("gpt-4o", budget)` applied to a text
  (lines 114-122), taking the budget first;
* `embedLen` — `len(encoding.encode(text))` for the tiktoken encoding
  (lines 125-126);
* `detector` — `detector.detect_language_of(sample)` (line 86); `Except.error`
  models an exception raised inside the detector, `Except.ok none` a null
  (undetermined) result;
* `isLlOrM` — the Unicode character class `[\p{Ll}\p{M}]` used by the third
  normalizer regex (line 79). -/
structure Env where
  oracle : List Message → Option JObj
  chunker : Nat → String → List String
  embedLen : String → Nat
  detector : String → Except Unit (Option LinguaLanguage)
  isLlOrM : Char → Bool

/-- Embeds `CHUNK_PROMPT_N.format(chunk=chunk, bullet_num=bullet_num)`
(lines 38-54). -/
def CHUNK_PROMPT_N (bullet_num : Nat) (chunk : String) : String :=
  "As a professional summarizer, generate a structured JSON output for the provided text chunk. Your output must follow these guidelines:\n\n1. Title: Create a short, clear, and compelling title (within 5-10 words) that captures the core idea or theme of the text chunk. The title should provide a concise overview of the summary.\n2. Summary:\n   - Create a coherent list of "
    ++ toString bullet_num
    ++ " bullet points that accurately capture the essential points of the text chunk.\n   - Ensure that each bullet point is well-structured and reflects the most important information while removing any unnecessary details.\n   - Ensure that each bullet point averages about 15-20 words. This balance maintains brevity while providing sufficient detail for clarity and comprehension.\n   - Ensure that each bullet point is a complete, meaningful sentence.\n3. Content Integrity: Ensure the summary strictly reflects the content of the chunk without introducing external information.\n4. Consistent Style: Ensure that the tone, style, and formatting are consistent across the entire summary. Present a unified voice and approach throughout the document.\n5. JSON Structure: Return the result as a JSON object with two fields:\n   - `title`: A string containing the title.\n   - `summary`: A list of strings, each representing a bullet point.\n\nThe text chunk:\n"
    ++ chunk
    ++ "\n"

/-- Embeds `REFINE_PROMPT_N.format(merged_summaries=..., further_instruction=...)`
(lines 56-63). -/
def REFINE_PROMPT_N (merged_summaries : String) (further_instruction : String) : String :=
  "Divide into paragraphs. Return the output under the JSON key `summary`.\n\nThe summary:\n\n"
    ++ merged_summaries
    ++ "\n\nFurther instruction: "
    ++ further_instruction
    ++ "\n"

/-- Embeds `CHUNK_SYS_PROMPT` (line 65). -/
def CHUNK_SYS_PROMPT : String :=
  "You are ChatGPT, a helpful AI that excels at summarization and text manipulation. You always return a valid JSON object with only two keys `title` and `summary`. Unless otherwise instructed, always return the output in the original language of the document."

/-- Embeds `SYS_PROMPT` (line 67). -/
def SYS_PROMPT : String :=
  "You are ChatGPT, a helpful AI that excels at summarization and text manipulation. You always return a valid JSON object with only one key `summary`. Unless otherwise instructed, always return the output in the original language of the document."

/-- Embeds `SYS_PROMPT_ADD.format(lang=lang)` (line 69). -/
def SYS_PROMPT_ADD (lang : String) : String :=
  " Always return the output in " ++ lang ++ "."

/-- Helper for the first normalizer regex `\*\*(.*?)\*\*|\*(.*?)\*`
(line 75): after an opening `**`, lazily scan for the closing `**`.
Returns the (minimal) span matched by `(.*?)` and the remainder after the
closing `**`; `none` when no closing `**` occurs before a newline (`.` does
not match a newline) or the end of input. -/
def findClose2 : List Char → Option (List Char × List Char)
  | [] => none
  | c :: rest =>
    if c = '*' ∧ rest.head? = some '*' then some ([], rest.tail)
    else if c = '\n' then none
    else (findClose2 rest).map (fun p => (c :: p.1, p.2))

/-- Like `findClose2` but for the second alternative `\*(.*?)\*`: scan for a
single closing `*`. -/
def findClose1 : List Char → Option (List Char × List Char)
  | [] => none
  | c :: rest =>
    if c = '*' then some ([], rest)
    else if c = '\n' then none
    else (findClose1 rest).map (fun p => (c :: p.1, p.2))

/-- Embeds `re.sub(r"\*\*(.*?)\*\*|\*(.*?)\*", r"\1\2", md_string)` (line 75):
left-to-right non-overlapping replacement, the `**`-delimited alternative tried
first at each position, the replacement keeping only the inner text.  The fuel
argument bounds recursion; `stripEmphL` supplies `l.length`, which is
sufficient because every match consumes at least one character. -/
def stripEmphFuel : Nat → List Char → List Char
  | 0, l => l
  | _ + 1, [] => []
  | fuel + 1, c :: rest =>
    if c = '*' ∧ rest.head? = some '*' then
      -- opening `**`; `rest.tail` is the text after it
      match findClose2 rest.tail with
      | some (content, rem) => content ++ stripEmphFuel fuel rem
      | none =>
        -- no closing `**`: the single-star alternative matches the two
        -- opening stars with empty content
        stripEmphFuel fuel rest.tail
    else if c = '*' then
      match findClose1 rest with
      | some (content, rem) => content ++ stripEmphFuel fuel rem
      | none => '*' :: stripEmphFuel fuel rest
    else c :: stripEmphFuel fuel rest

/-- The emphasis-stripping rule on character lists. -/
def stripEmphL (l : List Char) : List Char :=
  stripEmphFuel l.length l

/-- The emphasis-stripping rule (normalizer rule 1, line 75) on strings. -/
def stripEmphS (s : String) : String :=
  ⟨stripEmphL s.data⟩

/-- Embeds `re.sub(r"\n\n-----\n\n", "\n", md_string)` (line 77): each
occurrence of a horizontal-rule line surrounded by blank lines is replaced by
a single `"\n"`, scanning left to right without overlap. -/
def hrSubL : List Char → List Char
  | '\n' :: '\n' :: '-' :: '-' :: '-' :: '-' :: '-' :: '\n' :: '\n' :: rest =>
    '\n' :: hrSubL rest
  | c :: rest => c :: hrSubL rest
  | [] => []

/-- The horizontal-rule rule (normalizer rule 2, line 77) on strings. -/
def hrSubS (s : String) : String :=
  ⟨hrSubL s.data⟩

/-- Embeds `re.sub(r"(?<!\.)\n\n(?=[\p{Ll}\p{M}])", "\n", md_string)`
(line 79): a double line break not preceded by `'.'` and followed by a
character of class `[\p{Ll}\p{M}]` (supplied as `isLlOrM`) collapses to a
single line break; the lookaround characters are not consumed. `prev` is the
character before the current scan position in the original string. -/
def collapseL (isLlOrM : Char → Bool) : Option Char → List Char → List Char
  | prev, '\n' :: '\n' :: c :: rest =>
    if prev ≠ some '.' ∧ isLlOrM c then
      '\n' :: collapseL isLlOrM (some '\n') (c :: rest)
    else
      '\n' :: collapseL isLlOrM (some '\n') ('\n' :: c :: rest)
  | _, c :: rest => c :: collapseL isLlOrM (some c) rest
  | _, [] => []

/-- The paragraph-break collapsing rule (normalizer rule 3, line 79) on
strings. -/
def collapseS (isLlOrM : Char → Bool) (s : String) : String :=
  ⟨collapseL isLlOrM none s.data⟩

/-- Embeds `process_markdown_string` (lines 72-79): the three regex rewrites
applied in order. -/
def process_markdown_string (isLlOrM : Char → Bool) (md_string : String) : String :=
  collapseS isLlOrM (hrSubS (stripEmphS md_string))

/-- Embeds the `try:` body of `detect_language_lingua` (lines 85-108):
the detector call may raise (`Except.error`), a `None` result or an
unsupported language yields `"English"`, and the three supported languages map
to the string literals of the source (note line 104: SLOVAK maps to
`"Slovakia"`). -/
def detect_language_try (env : Env) (text : String) : Except Unit String :=
  match env.detector text with
  | Except.error e => Except.error e
  | Except.ok none => Except.ok "English"
  | Except.ok (some language) =>
    if language ≠ LinguaLanguage.ENGLISH ∧ language ≠ LinguaLanguage.CZECH ∧
        language ≠ LinguaLanguage.SLOVAK then
      Except.ok "English"
    else if language = LinguaLanguage.ENGLISH then Except.ok "English"
    else if language = LinguaLanguage.CZECH then Except.ok "Czech"
    else if language = LinguaLanguage.SLOVAK then Except.ok "Slovakia"
    else Except.ok "English"

/-- Embeds `detect_language_lingua` (lines 82-111): the whole body runs under
`try ... except Exception: return "English"`, so every exception becomes a
normal `"English"` return. -/
def detect_language_lingua (env : Env) (text : String) : String :=
  match detect_language_try env text with
  | Except.ok s => s
  | Except.error _ => "English"

/-- The exception behavior of `detect_language_lingua` as observed by its
caller: its internal `except Exception` handler catches every exception raised
in the body, so every control path returns normally and the result is always
`Except.ok`. -/
def detect_language_result (env : Env) (text : String) : Except Unit String :=
  Except.ok (detect_language_lingua env text)

/-- Embeds the call site in `summarize_text_with_detail_level` (lines 338-341):
`try: lang = detect_language_lingua(text_sample) except ValueError: lang = None`. -/
def entryLang (env : Env) (text_sample : String) : Option String :=
  match detect_language_result env text_sample with
  | Except.ok s => some s
  | Except.error _ => none

/-- Embeds `embed_len` (lines 125-126). -/
def embed_len (env : Env) (text : String) : Nat :=
  env.embedLen text

/-- Embeds `chunk_text` (lines 114-122): build the semantic chunker for the
given budget and apply it to the text. -/
def chunk_text (env : Env) (text : String) (max_token_chars : Nat) : List String :=
  env.chunker max_token_chars text

/-- The whitespace characters recognized by Python `str.split()` on ASCII
text (the Unicode-only space separators are outside the scope of the
claims). -/
def isPythonSpace (c : Char) : Bool :=
  c = ' ' ∨ c = '\t' ∨ c = '\n' ∨ c = '\r' ∨ c = '\x0b' ∨ c = '\x0c'

/-- Word counting state machine: counts maximal runs of non-whitespace
characters; `inWord` records whether the previous character was part of a
word. -/
def count_word_aux : Bool → List Char → Nat
  | _, [] => 0
  | inWord, c :: rest =>
    if isPythonSpace c then count_word_aux false rest
    else (if inWord then 0 else 1) + count_word_aux true rest

/-- Embeds `count_word` (lines 129-140): `len(text.split())`. -/
def count_word (text : String) : Nat :=
  count_word_aux false text.data

/-- The whitespace-split token list itself (`text.split()`), written
independently of `count_word` so that the counting claim can relate the two:
`acc` is the current in-progress token, reversed. -/
def wsTokensAux : List Char → List Char → List (List Char)
  | acc, [] => if acc = [] then [] else [acc.reverse]
  | acc, c :: rest =>
    if isPythonSpace c then
      if acc = [] then wsTokensAux [] rest else acc.reverse :: wsTokensAux [] rest
    else wsTokensAux (c :: acc) rest

/-- The whitespace-split token list of a string. -/
def wsTokens (s : String) : List (List Char) :=
  wsTokensAux [] s.data

/-- Embeds `_acomplete` (lines 158-160): one completion call plus
`json.loads`; `none` is a raised exception (invalid JSON or client error). -/
def _acomplete (env : Env) (messages : List Message) : Option JObj :=
  env.oracle messages

/-- Embeds `BULLET_NUM_MAPPING` (lines 162-178), a dict of dicts;
`none` is a `KeyError` for a budget outside {512, 1024, 2048}. -/
def BULLET_NUM_MAPPING (max_token_per_chunk : Nat)
    (summarization_level : SummarizationLevelEnum) : Option Nat :=
  match max_token_per_chunk, summarization_level with
  | 512, SummarizationLevelEnum.CONCISE => some 3
  | 512, SummarizationLevelEnum.MEDIUM => some 4
  | 512, SummarizationLevelEnum.DETAILED => some 5
  | 1024, SummarizationLevelEnum.CONCISE => some 4
  | 1024, SummarizationLevelEnum.MEDIUM => some 6
  | 1024, SummarizationLevelEnum.DETAILED => some 8
  | 2048, SummarizationLevelEnum.CONCISE => some 4
  | 2048, SummarizationLevelEnum.MEDIUM => some 8
  | 2048, SummarizationLevelEnum.DETAILED => some 12
  | _, _ => none

/-- Embeds the budget selection of `_summarize_multiple_chunks`
(lines 208-213). -/
def chunk_budget (env : Env) (text : String) : Nat :=
  if embed_len env text < 2048 then 512
  else if embed_len env text < 4096 then 1024
  else 2048

/-- Embeds the message construction of `_summarize_chunk` (lines 237-250):
`if lang:` is Python truthiness, so `some ""` takes the plain system prompt. -/
def chunk_messages (chunk : String) (bullet_num : Nat) (lang : Option String) :
    List Message :=
  let system_prompt :=
    match lang with
    | some l => if l.isEmpty then CHUNK_SYS_PROMPT else CHUNK_SYS_PROMPT ++ SYS_PROMPT_ADD l
    | none => CHUNK_SYS_PROMPT
  [⟨"system", system_prompt⟩, ⟨"user", CHUNK_PROMPT_N bullet_num chunk⟩]

/-- Embeds `_summarize_chunk` (lines 234-256): one model call; both JSON keys
`title` and `summary` are required (a missing key raises `KeyError`). -/
def _summarize_chunk (env : Env) (chunk : String) (bullet_num : Nat)
    (lang : Option String) : Option (String × JVal) :=
  match _acomplete env (chunk_messages chunk bullet_num lang) with
  | none => none
  | some content =>
    match content.title, content.summary with
    | some title, some summary => some (title, summary)
    | _, _ => none

/-- Embeds `"\n".join(chunk_summary)` (line 226).  The normal protocol value
is a list of bullet strings; a bare JSON string is joined character by
character, as Python `str.join` iterates a string. -/
def joinBullets : JVal → String
  | JVal.jlist l => String.intercalate "\n" l
  | JVal.jstr s => String.intercalate "\n" (s.data.map (fun c => String.singleton c))

/-- Embeds the merge loop of `_summarize_multiple_chunks` (lines 222-230):
append `f"{bullet_points}\n"` per result in order, then `"".join(...)`. -/
def merge_chunk_summaries (results : List (String × JVal)) : String :=
  let chunk_summaries :=
    results.foldl (fun acc r => acc ++ [joinBullets r.2 ++ "\n"]) ([] : List String)
  String.join chunk_summaries

/-- Embeds `asyncio.gather(*tasks)` (line 220) once every task has completed:
results are delivered in the original task order, and any failed task fails
the whole gather (the exception propagates). -/
def gather {α : Type} : List (Option α) → Option (List α)
  | [] => some []
  | none :: _ => none
  | some a :: rest => (gather rest).map (fun l => a :: l)

/-- Models the event loop executing the gathered tasks in an arbitrary
completion order: each index in `order` is completed in turn and its result
stored positionally in a slot list (initially all unset). -/
def collectPositional {α : Type} (tasks : List (Option α)) (order : List Nat) :
    List (Option (Option α)) :=
  order.foldl (fun slots k => slots.set k tasks[k]?) (List.replicate tasks.length none)

/-- `asyncio.gather` under an explicit completion order: complete the tasks in
`order`, store results positionally, then read the slots out in index order
(an unset slot, impossible when `order` covers every index, reads as a
failure). -/
def gatherArrival {α : Type} (tasks : List (Option α)) (order : List Nat) :
    Option (List α) :=
  gather ((collectPositional tasks order).map (fun slot => slot.getD none))

/-- Embeds `_summarize_multiple_chunks` (lines 202-232): pick the budget by
total token length, look up the bullet target, chunk, summarize every chunk
concurrently, gather in order, merge. -/
def _summarize_multiple_chunks (env : Env) (text : String)
    (summarization_level : SummarizationLevelEnum) (lang : Option String) :
    Option String :=
  let max_token_per_chunk := chunk_budget env text
  match BULLET_NUM_MAPPING max_token_per_chunk summarization_level with
  | none => none
  | some bullet_num =>
    let chunks := chunk_text env text max_token_per_chunk
    let tasks := chunks.map (fun chunk => _summarize_chunk env chunk bullet_num lang)
    match gather tasks with
    | none => none
    | some results => some (merge_chunk_summaries results)

/-- `_summarize_multiple_chunks` with the event loop completing the chunk
tasks in the explicit order `order` instead of index order. -/
def summarize_multiple_chunks_arrival (env : Env) (text : String)
    (summarization_level : SummarizationLevelEnum) (lang : Option String)
    (order : List Nat) : Option String :=
  let max_token_per_chunk := chunk_budget env text
  match BULLET_NUM_MAPPING max_token_per_chunk summarization_level with
  | none => none
  | some bullet_num =>
    let chunks := chunk_text env text max_token_per_chunk
    let tasks := chunks.map (fun chunk => _summarize_chunk env chunk bullet_num lang)
    match gatherArrival tasks order with
    | none => none
    | some results => some (merge_chunk_summaries results)

/-- Embeds the message construction of `_refine_merged_summaries`
(lines 261-275). -/
def refine_messages (merged_summaries : String) (lang : Option String)
    (further_instruction : String) : List Message :=
  let system_prompt :=
    match lang with
    | some l => if l.isEmpty then SYS_PROMPT else SYS_PROMPT ++ SYS_PROMPT_ADD l
    | none => SYS_PROMPT
  [⟨"system", system_prompt⟩, ⟨"user", REFINE_PROMPT_N merged_summaries further_instruction⟩]

/-- Embeds `_refine_merged_summaries` (lines 258-280): one model call; the key
`summary` is required (`KeyError` when missing) and its value is returned
as-is. -/
def _refine_merged_summaries (env : Env) (merged_summaries : String)
    (lang : Option String) (further_instruction : String) : Option JVal :=
  match _acomplete env (refine_messages merged_summaries lang further_instruction) with
  | none => none
  | some content =>
    match content.summary with
    | some v => some v
    | none => none

/-- Embeds `_summarize_text` (lines 180-200): orchestrate, re-chunk the merged
summary at the fixed 400-token budget, rejoin with blank lines, refine, and
pair the refined text with its word count.  A refinement value that is not a
string fails the call (in Python, `count_word` then raises
`AttributeError` on the list). -/
def _summarize_text (env : Env) (text : String)
    (summarization_level : SummarizationLevelEnum) (lang : Option String)
    (further_instruction : String) : Option (String × Nat) :=
  match _summarize_multiple_chunks env text summarization_level lang with
  | none => none
  | some merged_summary =>
    let chunks := chunk_text env merged_summary 400
    let merged_summary := String.intercalate "\n\n" chunks
    match _refine_merged_summaries env merged_summary lang further_instruction with
    | none => none
    | some (JVal.jstr s) => some (s, count_word s)
    | some (JVal.jlist _) => none

/-- Embeds `SummarizerWithDetailLevel.summarize` (lines 282-306):
`None` further instruction becomes the empty string. -/
def summarize (env : Env) (text : String)
    (summarization_level : SummarizationLevelEnum) (lang : Option String)
    (further_instruction : Option String) : Option (String × Nat) :=
  let fi := match further_instruction with
    | none => ""
    | some s => s
  _summarize_text env text summarization_level lang fi

/-- Python `str.upper()` (character-wise uppercasing; the level strings are
ASCII). -/
def str_upper (s : String) : String :=
  ⟨s.data.map Char.toUpper⟩

/-- Embeds `SummarizationLevelEnum[summarization_level.upper()]` with
`except KeyError: MEDIUM` (lines 332-335). -/
def parse_level (s : String) : SummarizationLevelEnum :=
  if str_upper s = "CONCISE" then SummarizationLevelEnum.CONCISE
  else if str_upper s = "MEDIUM" then SummarizationLevelEnum.MEDIUM
  else if str_upper s = "DETAILED" then SummarizationLevelEnum.DETAILED
  else SummarizationLevelEnum.MEDIUM

/-- Embeds `summarize_text_with_detail_level` (lines 313-350). -/
def summarize_text_with_detail_level (env : Env) (text : String)
    (summarization_level : String) (further_instruction : Option String) :
    Option (String × Nat) :=
  let text1 := process_markdown_string env.isLlOrM text
  let summ_level_enum := parse_level summarization_level
  let text_sample := text1.take (min text1.length 1000)
  let lang := entryLang env text_sample
  summarize env text1 summ_level_enum lang further_instruction

/-- Embeds `summarize_text_with_word_count` (lines 354-385): normalize,
derive a level from the word-count thresholds, synthesize the instruction,
and delegate to the detail-level entry point (which normalizes again). -/
def summarize_text_with_word_count (env : Env) (text : String)
    (num_words : Int) : Option (String × Nat) :=
  let text1 := process_markdown_string env.isLlOrM text
  let level :=
    if num_words ≤ 50 then "concise"
    else if num_words ≤ 150 then "medium"
    else "detailed"
  let instruction := "Create a summary with approximately " ++ toString num_words ++ " words."
  summarize_text_with_detail_level env text1 level (some instruction)

/-- A concrete completion oracle for witnesses: refinement requests (whose
user prompt starts with the letter D of "Divide into paragraphs") get a fixed
two-word summary, chunk requests get a fixed title and two bullets. -/
def demoOracle : List Message → Option JObj := fun msgs =>
  match msgs with
  | _ :: u :: _ =>
    if u.content.data.head? = some 'D' then some ⟨none, some (JVal.jstr "hello world")⟩
    else some ⟨some "T", some (JVal.jlist ["bullet one", "bullet two"])⟩
  | _ => none

/-- A concrete completion oracle that echoes what it was sent, so that the
final result records what reached the model: a chunk request (user prompt not
starting with the letter D of "Divide into paragraphs") yields one bullet
holding the tail of the user prompt from position 900 on — the chunk text
sits at the very end of the chunk prompt, past that position — and a
refinement request yields the whole user prompt as the summary string. -/
def echoOracle : List Message → Option JObj := fun msgs =>
  match msgs with
  | _ :: u :: _ =>
    if u.content.data.head? = some 'D' then some ⟨none, some (JVal.jstr u.content)⟩
    else some ⟨some "T", some (JVal.jlist [String.mk (u.content.data.drop 900)])⟩
  | _ => none

/-- A concrete completion oracle whose every response is missing the
`summary` key. -/
def malformedOracle : List Message → Option JObj := fun _ =>
  some ⟨some "T", none⟩

/-- A concrete chunker that returns the whole text as a single chunk. -/
def oneChunker : Nat → String → List String := fun _ s => [s]

/-- A concrete token-length function (every text counts as zero tokens). -/
def zeroLen : String → Nat := fun _ => 0

/-- A concrete detector that never identifies a language. -/
def noDetect : String → Except Unit (Option LinguaLanguage) := fun _ =>
  Except.ok none

/-- A concrete detector that always reports Slovak. -/
def slovakDetect : String → Except Unit (Option LinguaLanguage) := fun _ =>
  Except.ok (some LinguaLanguage.SLOVAK)

/-- Witness environment: fixed oracle, single-chunk chunker. -/
def envA : Env := ⟨demoOracle, oneChunker, zeroLen, noDetect, Char.isLower⟩

/-- Witness environment with the echoing oracle. -/
def envB : Env := ⟨echoOracle, oneChunker, zeroLen, noDetect, Char.isLower⟩

/-- Witness environment whose detector reports Slovak. -/
def envSlovak : Env := ⟨demoOracle, oneChunker, zeroLen, slovakDetect, Char.isLower⟩

/-- Witness environment whose oracle always omits the `summary` key. -/
def envMalformed : Env := ⟨malformedOracle, oneChunker, zeroLen, noDetect, Char.isLower⟩

/-! ## Helper lemmas -/

/-- The emphasis-stripping scan leaves a string without `*` unchanged. -/
theorem stripEmphFuel_of_no_star :
    ∀ (fuel : Nat) (l : List Char), (∀ c ∈ l, c ≠ '*') →
      stripEmphFuel fuel l = l := by
  intro fuel
  induction fuel with
  | zero => intro l _; rfl
  | succ n ih =>
    intro l hstar
    match l with
    | [] => rfl
    | c :: rest =>
      have hc : c ≠ '*' := hstar c (List.mem_cons_self _ _)
      have hrest : ∀ d ∈ rest, d ≠ '*' := fun d hd => hstar d (List.mem_cons_of_mem _ hd)
      simp only [stripEmphFuel, hc, if_neg, false_and, if_false, and_false]
      rw [ih rest hrest]

/-- Appending one mapped element at a time is mapping. -/
theorem foldl_append_singleton {α β : Type} (g : α → β) :
    ∀ (l : List α) (acc : List β),
      l.foldl (fun a r => a ++ [g r]) acc = acc ++ l.map g := by
  intro l
  induction l with
  | nil => intro acc; simp
  | cons x xs ih => intro acc; simp [List.foldl_cons, ih]

/-- The merge loop of the orchestrator produces one block per result, in
order. -/
theorem merge_chunk_summaries_eq (results : List (String × JVal)) :
    merge_chunk_summaries results =
      String.join (results.map (fun r => joinBullets r.2 ++ "\n")) := by
  unfold merge_chunk_summaries
  rw [foldl_append_singleton]
  simp

/-- A successful gather returns exactly one result per task, positionally. -/
theorem gather_some {α : Type} :
    ∀ (l : List (Option α)) (r : List α), gather l = some r →
      r.length = l.length ∧
        ∀ (i : Nat) (h1 : i < l.length) (h2 : i < r.length),
          l.get ⟨i, h1⟩ = some (r.get ⟨i, h2⟩) := by
  intro l
  induction l with
  | nil =>
    intro r h
    simp only [gather, Option.some.injEq] at h
    subst h
    exact ⟨rfl, fun i h1 _ => absurd h1 (by simp)⟩
  | cons a rest ih =>
    intro r h
    match a with
    | none => simp [gather] at h
    | some x =>
      simp only [gather] at h
      rcases Option.map_eq_some'.mp h with ⟨r', hr', hrr⟩
      subst hrr
      obtain ⟨hlen, hget⟩ := ih r' hr'
      refine ⟨by simp [hlen], ?_⟩
      intro i h1 h2
      match i with
      | 0 => rfl
      | i + 1 => exact hget i (by simpa using h1) (by simpa using h2)

/-- Reading a slot of the positional collection: an index completed by
`order` holds its task's outcome; others keep their initial value. -/
theorem collectPositional_getElem {α : Type} (tasks : List (Option α)) :
    ∀ (order : List Nat) (init : List (Option (Option α))) (j : Nat),
      (order.foldl (fun slots k => slots.set k tasks[k]?) init)[j]? =
        if j ∈ order ∧ j < init.length then some tasks[j]? else init[j]? := by
  intro order
  induction order with
  | nil => intro init j; simp
  | cons k rest ih =>
    intro init j
    rw [List.foldl_cons, ih]
    rw [List.length_set]
    by_cases hjr : j ∈ rest ∧ j < init.length
    · rw [if_pos hjr, if_pos ⟨List.mem_cons_of_mem _ hjr.1, hjr.2⟩]
    · rw [if_neg hjr]
      by_cases hjk : j = k
      · subst hjk
        by_cases hlen : j < init.length
        · rw [List.getElem?_set_eq_of_lt _ hlen,
            if_pos ⟨List.mem_cons_self _ _, hlen⟩]
        · rw [List.getElem?_eq_none (by rw [List.length_set]; omega),
            if_neg (fun hk => hlen hk.2), List.getElem?_eq_none (by omega)]
      · rw [List.getElem?_set_ne (fun he => hjk he.symm)]
        rw [if_neg]
        intro hk
        rcases List.mem_cons.mp hk.1 with he | hm
        · exact hjk he
        · exact hjr ⟨hm, hk.2⟩

/-- When the completion order reaches every task index, the positional
collection is exactly the task outcomes, in index order. -/
theorem collectPositional_eq_map_some {α : Type} (tasks : List (Option α))
    (order : List Nat) (hcov : ∀ j, j < tasks.length → j ∈ order) :
    collectPositional tasks order = tasks.map some := by
  apply List.ext_getElem?
  intro j
  unfold collectPositional
  rw [collectPositional_getElem tasks order (List.replicate tasks.length none) j]
  rw [List.length_replicate, List.getElem?_map]
  by_cases hj : j < tasks.length
  · rw [if_pos ⟨hcov j hj, hj⟩, List.getElem?_eq_getElem hj]
    rfl
  · rw [if_neg (fun hk => hj hk.2),
      List.getElem?_eq_none (by rw [List.length_replicate]; omega),
      List.getElem?_eq_none (by omega)]
    rfl

/-- Gathering under any covering completion order equals index-order
gathering: completion order is irrelevant. -/
theorem gatherArrival_eq_gather {α : Type} (tasks : List (Option α))
    (order : List Nat) (hcov : ∀ j, j < tasks.length → j ∈ order) :
    gatherArrival tasks order = gather tasks := by
  unfold gatherArrival
  rw [collectPositional_eq_map_some tasks order hcov]
  congr 1
  rw [List.map_map]
  have hcomp : ((fun slot : Option (Option α) => slot.getD none) ∘ some) = id := by
    funext a
    rfl
  rw [hcomp, List.map_id]

/-- The word-count state machine counts exactly the whitespace-split tokens:
`acc` is the in-progress token and `b` records whether one is open. -/
theorem wsTokensAux_length :
    ∀ (l : List Char) (acc : List Char) (b : Bool), (b = true ↔ acc ≠ []) →
      (wsTokensAux acc l).length =
        count_word_aux b l + (if acc = [] then 0 else 1) := by
  intro l
  induction l with
  | nil =>
    intro acc b _
    by_cases hacc : acc = [] <;> simp [wsTokensAux, count_word_aux, hacc]
  | cons c rest ih =>
    intro acc b hb
    by_cases hsp : isPythonSpace c = true
    · have h1 : wsTokensAux acc (c :: rest) =
          if acc = [] then wsTokensAux [] rest
          else acc.reverse :: wsTokensAux [] rest := by
        simp [wsTokensAux, hsp]
      have h2 : count_word_aux b (c :: rest) = count_word_aux false rest := by
        simp [count_word_aux, hsp]
      rw [h1, h2]
      by_cases hacc : acc = []
      · rw [if_pos hacc, if_pos hacc, ih [] false (by simp)]
        simp
      · rw [if_neg hacc, if_neg hacc]
        simp only [List.length_cons]
        rw [ih [] false (by simp)]
        simp
    · have h1 : wsTokensAux acc (c :: rest) = wsTokensAux (c :: acc) rest := by
        simp [wsTokensAux, hsp]
      have h2 : count_word_aux b (c :: rest) =
          (if b then 0 else 1) + count_word_aux true rest := by
        simp [count_word_aux, hsp]
      rw [h1, h2, ih (c :: acc) true (by simp)]
      by_cases hacc : acc = []
      · have hbf : b = false := by
          cases b with
          | false => rfl
          | true => exact absurd hacc (hb.mp rfl)
        subst hbf
        simp [hacc]
        omega
      · have hbt : b = true := hb.mpr hacc
        subst hbt
        simp [hacc]

/-- `detect_language_lingua` as a case analysis on the detector result. -/
theorem detect_language_lingua_cases (env : Env) (text : String) :
    detect_language_lingua env text =
      match env.detector text with
      | Except.ok (some LinguaLanguage.ENGLISH) => "English"
      | Except.ok (some LinguaLanguage.CZECH) => "Czech"
      | Except.ok (some LinguaLanguage.SLOVAK) => "Slovakia"
      | _ => "English" := by
  unfold detect_language_lingua detect_language_try
  cases h : env.detector text with
  | error e => rfl
  | ok lo =>
    cases lo with
    | none => rfl
    | some lang => cases lang <;> simp

/-- The detected language string is never empty (it is one of the three
supported-language literals). -/
theorem detect_language_lingua_ne_empty (env : Env) (text : String) :
    (detect_language_lingua env text).isEmpty = false := by
  rw [detect_language_lingua_cases]
  cases h : env.detector text with
  | error e => rfl
  | ok lo =>
    cases lo with
    | none => rfl
    | some lang => cases lang <;> rfl

/-! ## Claims -/

/-- C3 counterexample: when the detector reports SLOVAK, the function
returns the string "Slovakia" (line 104 of the source), not "Slovak" as the
claim states. -/
theorem C3_slovak_counterexample :
    detect_language_lingua envSlovak "Ahoj" = "Slovakia" ∧
    detect_language_lingua envSlovak "Ahoj" ≠ "Slovak" := by
  constructor
  · rfl
  · decide

/-- C3 (amended): language detection never fails and returns exactly one of
the three strings "English", "Czech", "Slovakia": detector results ENGLISH
and CZECH pass through as "English" and "Czech", SLOVAK yields the literal
"Slovakia", and any other result — null, an unsupported language, or an
internal detector exception — yields "English". -/
theorem C3_language_coercion_amended (env : Env) (text : String) :
    (detect_language_lingua env text =
      match env.detector text with
      | Except.ok (some LinguaLanguage.ENGLISH) => "English"
      | Except.ok (some LinguaLanguage.CZECH) => "Czech"
      | Except.ok (some LinguaLanguage.SLOVAK) => "Slovakia"
      | _ => "English") ∧
    (detect_language_lingua env text = "English" ∨
      detect_language_lingua env text = "Czech" ∨
      detect_language_lingua env text = "Slovakia") := by
  refine ⟨detect_language_lingua_cases env text, ?_⟩
  rw [detect_language_lingua_cases]
  cases h : env.detector text with
  | error e => left; rfl
  | ok lo =>
    cases lo with
    | none => left; rfl
    | some lang =>
      cases lang with
      | ENGLISH => left; rfl
      | CZECH => right; left; rfl
      | SLOVAK => right; right; rfl
      | OTHER name => left; rfl

/-- C4: the orchestrator's chunk budget is 512 below 2048 total tokens, 1024
in 2048..4095, and 2048 from 4096 on; and the bullet-count table is exactly
the one of section 4.4 of the spec. -/
theorem C4_chunk_budget_and_bullet_table (env : Env) (text : String) :
    ((embed_len env text < 2048 → chunk_budget env text = 512) ∧
     (2048 ≤ embed_len env text → embed_len env text < 4096 →
       chunk_budget env text = 1024) ∧
     (4096 ≤ embed_len env text → chunk_budget env text = 2048)) ∧
    (BULLET_NUM_MAPPING 512 SummarizationLevelEnum.CONCISE = some 3 ∧
     BULLET_NUM_MAPPING 512 SummarizationLevelEnum.MEDIUM = some 4 ∧
     BULLET_NUM_MAPPING 512 SummarizationLevelEnum.DETAILED = some 5 ∧
     BULLET_NUM_MAPPING 1024 SummarizationLevelEnum.CONCISE = some 4 ∧
     BULLET_NUM_MAPPING 1024 SummarizationLevelEnum.MEDIUM = some 6 ∧
     BULLET_NUM_MAPPING 1024 SummarizationLevelEnum.DETAILED = some 8 ∧
     BULLET_NUM_MAPPING 2048 SummarizationLevelEnum.CONCISE = some 4 ∧
     BULLET_NUM_MAPPING 2048 SummarizationLevelEnum.MEDIUM = some 8 ∧
     BULLET_NUM_MAPPING 2048 SummarizationLevelEnum.DETAILED = some 12) := by
  refine ⟨⟨?_, ?_, ?_⟩, by decide⟩
  · intro h
    unfold chunk_budget
    rw [if_pos h]
  · intro h1 h2
    unfold chunk_budget
    rw [if_neg (by omega), if_pos h2]
  · intro h
    unfold chunk_budget
    rw [if_neg (by omega), if_neg (by omega)]

/-- C4 witness: with the zero-token-length environment the budget is 512 and
the table row (1024, DETAILED) gives 8. -/
theorem C4_chunk_budget_and_bullet_table_witness :
    chunk_budget envA "t" = 512 ∧
    BULLET_NUM_MAPPING 1024 SummarizationLevelEnum.DETAILED = some 8 :=
  ⟨(C4_chunk_budget_and_bullet_table envA "t").1.1 (by decide),
   (C4_chunk_budget_and_bullet_table envA "t").2.2.2.2.2.2.1⟩

/-- C5 counterexample: the word-count entry point normalizes the markdown and
then delegates, and the delegate normalizes again; on an input whose
normalization is not idempotent (here `***x***`, which normalizes to `*x*`
and then to `x`), the word-count entry point does not equal the detail-level
entry point called on the same text with the derived level and instruction
(the model is called with a different chunk text, observable with the echoing
oracle). -/
theorem C5_delegation_counterexample :
    summarize_text_with_word_count envB "***x***" 30 ≠
      summarize_text_with_detail_level envB "***x***" "concise"
        (some "Create a summary with approximately 30 words.") := by
  decide

/-- C5 (amended): for every text and target word count n, the word-count
entry point derives level "concise" when n ≤ 50, "medium" when 50 < n ≤ 150,
and "detailed" otherwise, synthesizes the instruction "Create a summary with
approximately n words.", and its result equals calling the detail-level entry
point on the markdown-normalized text (not the raw text) with that level and
that instruction. -/
theorem C5_delegation_amended (env : Env) (text : String) (n : Int) :
    summarize_text_with_word_count env text n =
      summarize_text_with_detail_level env
        (process_markdown_string env.isLlOrM text)
        (if n ≤ 50 then "concise" else if n ≤ 150 then "medium" else "detailed")
        (some ("Create a summary with approximately " ++ toString n ++ " words.")) := by
  rfl

/-- C7 (code bug): on the failing input `"a\n\n-----\n\nb"` the normalizer
returns `"a\nb"` — the horizontal-rule paragraph break is replaced by a bare
newline (line 77 substitutes `"\n"`), not by a single blank line
(`"a\n\nb"`) as the claim and the code's own comment (line 76,
"Replace \n\n-----\n\n with \n\n") state. -/
theorem C7_hr_rule_divergence :
    (∀ f : Char → Bool, process_markdown_string f "a\n\n-----\n\nb" = "a\nb") ∧
    hrSubS "a\n\n-----\n\nb" = "a\nb" ∧
    ("a\nb" : String) ≠ "a\n\nb" := by
  refine ⟨fun f => rfl, rfl, by decide⟩

/-- C8 counterexample: the emphasis-stripping rule is not idempotent: one
application maps `***x***` to `*x*`, a second application maps that to `x`. -/
theorem C8_strip_not_idempotent :
    stripEmphS "***x***" = "*x*" ∧
    stripEmphS (stripEmphS "***x***") ≠ stripEmphS "***x***" := by
  constructor
  · rfl
  · decide

/-- C8 (amended): the emphasis-stripping rule is idempotent on every input
whose once-stripped output contains no remaining asterisk; in general a
second application can strip further (see the counterexample `***x***`). -/
theorem C8_strip_idempotent_amended (s : String)
    (h : ∀ c ∈ (stripEmphS s).data, c ≠ '*') :
    stripEmphS (stripEmphS s) = stripEmphS s := by
  show String.mk (stripEmphFuel (stripEmphS s).data.length (stripEmphS s).data) =
    stripEmphS s
  rw [stripEmphFuel_of_no_star (stripEmphS s).data.length (stripEmphS s).data h]

/-- C8 witness: `**x**` strips to `x`, which contains no asterisk, and a
second application leaves it unchanged. -/
theorem C8_strip_idempotent_amended_witness :
    stripEmphS (stripEmphS "**x**") = stripEmphS "**x**" :=
  C8_strip_idempotent_amended "**x**" (by decide)

/-- C2: for every successful summarization call (the core and both entry
points), the returned word count is `count_word` of the returned summary
string — the final refined text, not any intermediate — and `count_word` is
the length of the whitespace-split token list. -/
theorem C2_word_count_final :
    (∀ (env : Env) (text : String) (lvl : SummarizationLevelEnum)
        (lang : Option String) (fi : String) (s : String) (n : Nat),
        _summarize_text env text lvl lang fi = some (s, n) → n = count_word s) ∧
    (∀ (env : Env) (text sl : String) (fi : Option String) (s : String) (n : Nat),
        summarize_text_with_detail_level env text sl fi = some (s, n) →
        n = count_word s) ∧
    (∀ (env : Env) (text : String) (k : Int) (s : String) (n : Nat),
        summarize_text_with_word_count env text k = some (s, n) →
        n = count_word s) ∧
    (∀ s : String, count_word s = (wsTokens s).length) := by
  have key : ∀ (env : Env) (text : String) (lvl : SummarizationLevelEnum)
      (lang : Option String) (fi : String) (s : String) (n : Nat),
      _summarize_text env text lvl lang fi = some (s, n) → n = count_word s := by
    intro env text lvl lang fi s n h
    unfold _summarize_text at h
    cases h1 : _summarize_multiple_chunks env text lvl lang with
    | none => rw [h1] at h; exact absurd h (by simp)
    | some merged =>
      simp only [h1] at h
      cases h2 : _refine_merged_summaries env
          (String.intercalate "\n\n" (chunk_text env merged 400)) lang fi with
      | none => rw [h2] at h; exact absurd h (by simp)
      | some v =>
        simp only [h2] at h
        cases v with
        | jstr s2 =>
          simp only [Option.some.injEq, Prod.mk.injEq] at h
          rw [← h.1, ← h.2]
        | jlist _ => exact absurd h (by simp)
  have key2 : ∀ (env : Env) (text sl : String) (fi : Option String)
      (s : String) (n : Nat),
      summarize_text_with_detail_level env text sl fi = some (s, n) →
      n = count_word s := by
    intro env text sl fi s n h
    simp only [summarize_text_with_detail_level, summarize] at h
    exact key _ _ _ _ _ _ _ h
  refine ⟨key, key2, ?_, ?_⟩
  · intro env text k s n h
    simp only [summarize_text_with_word_count] at h
    exact key2 _ _ _ _ _ _ h
  · intro s
    have h := wsTokensAux_length s.data [] false (by simp)
    simp at h
    unfold count_word wsTokens
    omega

/-- C2 witness: a successful concrete run returns the summary
"hello world" with word count 2, which is its whitespace token count. -/
theorem C2_word_count_final_witness :
    summarize_text_with_detail_level envA "t" "medium" none =
      some ("hello world", 2) ∧
    (2 : Nat) = count_word "hello world" :=
  ⟨by decide,
   C2_word_count_final.2.1 envA "t" "medium" none "hello world" 2 (by decide)⟩

/-- C6: a model response that is invalid JSON or misses a required key
(`title`/`summary` for chunk summarization, `summary` for refinement) fails
the enclosing call with no partial result: the failing chunk call and the
failing refinement call both return nothing, and when every model response
lacks `summary`, the whole detail-level entry point returns nothing. -/
theorem C6_protocol_violation_fails :
    (∀ (env : Env) (chunk : String) (bn : Nat) (lang : Option String),
        env.oracle (chunk_messages chunk bn lang) = none →
        _summarize_chunk env chunk bn lang = none) ∧
    (∀ (env : Env) (chunk : String) (bn : Nat) (lang : Option String) (o : JObj),
        env.oracle (chunk_messages chunk bn lang) = some o →
        o.title = none ∨ o.summary = none →
        _summarize_chunk env chunk bn lang = none) ∧
    (∀ (env : Env) (m : String) (lang : Option String) (fi : String),
        env.oracle (refine_messages m lang fi) = none →
        _refine_merged_summaries env m lang fi = none) ∧
    (∀ (env : Env) (m : String) (lang : Option String) (fi : String) (o : JObj),
        env.oracle (refine_messages m lang fi) = some o →
        o.summary = none →
        _refine_merged_summaries env m lang fi = none) ∧
    (∀ (env : Env) (text sl : String) (fi : Option String),
        (∀ msgs, Option.elim (env.oracle msgs) True (fun o => o.summary = none)) →
        summarize_text_with_detail_level env text sl fi = none) := by
  have key : ∀ (env : Env) (t : String) (lvl : SummarizationLevelEnum)
      (lang : Option String) (fi : String),
      (∀ msgs, Option.elim (env.oracle msgs) True (fun o => o.summary = none)) →
      _summarize_text env t lvl lang fi = none := by
    intro env t lvl lang fi H
    unfold _summarize_text
    cases h1 : _summarize_multiple_chunks env t lvl lang with
    | none => rfl
    | some merged =>
      simp only [h1]
      have h2 : _refine_merged_summaries env
          (String.intercalate "\n\n" (chunk_text env merged 400)) lang fi = none := by
        unfold _refine_merged_summaries _acomplete
        have hh := H (refine_messages
          (String.intercalate "\n\n" (chunk_text env merged 400)) lang fi)
        cases ho : env.oracle (refine_messages
            (String.intercalate "\n\n" (chunk_text env merged 400)) lang fi) with
        | none => simp
        | some o =>
          rw [ho] at hh
          simp only [Option.elim] at hh
          simp [hh]
      simp [h2]
  refine ⟨?_, ?_, ?_, ?_, ?_⟩
  · intro env chunk bn lang h
    unfold _summarize_chunk _acomplete
    rw [h]
  · intro env chunk bn lang o h ho
    unfold _summarize_chunk _acomplete
    rw [h]
    rcases ho with ht | hs
    · simp [ht]
    · simp [hs]
  · intro env m lang fi h
    unfold _refine_merged_summaries _acomplete
    rw [h]
  · intro env m lang fi o h hs
    unfold _refine_merged_summaries _acomplete
    rw [h]
    simp [hs]
  · intro env text sl fi H
    simp only [summarize_text_with_detail_level, summarize]
    exact key env _ _ _ _ H

/-- C6 witness: with an oracle whose every response lacks the `summary` key,
the detail-level entry point returns nothing. -/
theorem C6_protocol_violation_fails_witness :
    summarize_text_with_detail_level envMalformed "t" "medium" none = none :=
  C6_protocol_violation_fails.2.2.2.2 envMalformed "t" "medium" none
    (fun _ => rfl)

/-- C9: the merged summary is the concatenation, in chunk order, of one block
per chunk — each block the chunk's bullets joined by newlines plus the
block-terminating newline — with no separator beyond each block's own
terminating newline (spec section 3: "each block newline-terminated"). -/
theorem C9_merge_block_structure :
    (∀ (env : Env) (text : String) (lvl : SummarizationLevelEnum)
        (lang : Option String),
      _summarize_multiple_chunks env text lvl lang =
        (BULLET_NUM_MAPPING (chunk_budget env text) lvl).bind (fun bn =>
          (gather ((chunk_text env text (chunk_budget env text)).map
              (fun c => _summarize_chunk env c bn lang))).map
            (fun results =>
              String.join (results.map (fun r => joinBullets r.2 ++ "\n"))))) ∧
    (∀ results : List (String × List String),
        merge_chunk_summaries (results.map (fun r => (r.1, JVal.jlist r.2))) =
          String.join (results.map
            (fun r => String.intercalate "\n" r.2 ++ "\n"))) := by
  constructor
  · intro env text lvl lang
    simp only [_summarize_multiple_chunks]
    cases hbn : BULLET_NUM_MAPPING (chunk_budget env text) lvl with
    | none => rfl
    | some bn =>
      simp only [Option.some_bind]
      cases hg : gather ((chunk_text env text (chunk_budget env text)).map
          (fun chunk => _summarize_chunk env chunk bn lang)) with
      | none => rfl
      | some results => simp [merge_chunk_summaries_eq]
  · intro results
    rw [merge_chunk_summaries_eq, List.map_map]
    have hfun : ((fun r : String × JVal => joinBullets r.2 ++ "\n") ∘
        (fun r : String × List String => (r.1, JVal.jlist r.2))) =
        (fun r : String × List String => String.intercalate "\n" r.2 ++ "\n") := by
      funext r
      rfl
    rw [hfun]

/-- C10: the language value the detail-level entry point passes onward is
never `none` — language detection returns normally on every path, so the dead
`except ValueError` fallback never fires — and with that detected language
every model call's system prompt carries the explicit
" Always return the output in {lang}." directive. -/
theorem C10_lang_never_none (env : Env) (sample chunk merged fi : String)
    (bn : Nat) :
    detect_language_result env sample =
      Except.ok (detect_language_lingua env sample) ∧
    entryLang env sample = some (detect_language_lingua env sample) ∧
    chunk_messages chunk bn (entryLang env sample) =
      [⟨"system", CHUNK_SYS_PROMPT ++
          SYS_PROMPT_ADD (detect_language_lingua env sample)⟩,
       ⟨"user", CHUNK_PROMPT_N bn chunk⟩] ∧
    refine_messages merged (entryLang env sample) fi =
      [⟨"system", SYS_PROMPT ++
          SYS_PROMPT_ADD (detect_language_lingua env sample)⟩,
       ⟨"user", REFINE_PROMPT_N merged fi⟩] := by
  have h1 : entryLang env sample = some (detect_language_lingua env sample) := rfl
  have h2 := detect_language_lingua_ne_empty env sample
  refine ⟨rfl, h1, ?_, ?_⟩
  · rw [h1]
    simp [chunk_messages, h2]
  · rw [h1]
    simp [refine_messages, h2]

/-- C1: the multi-chunk orchestration is independent of the completion order
of its concurrent chunk tasks — under any completion order that reaches every
chunk index, the result equals the index-order result — and whenever it
produces a merged string, block i of that string is the summarization of
chunk i, in original chunk order. -/
theorem C1_chunk_order_preserved (env : Env) (text : String)
    (lvl : SummarizationLevelEnum) (lang : Option String) (order : List Nat)
    (hcov : ∀ j, j < (chunk_text env text (chunk_budget env text)).length →
      j ∈ order) :
    summarize_multiple_chunks_arrival env text lvl lang order =
      _summarize_multiple_chunks env text lvl lang ∧
    ∀ (bn : Nat) (merged : String),
      BULLET_NUM_MAPPING (chunk_budget env text) lvl = some bn →
      _summarize_multiple_chunks env text lvl lang = some merged →
      ∃ results : List (String × JVal),
        results.length = (chunk_text env text (chunk_budget env text)).length ∧
        (∀ (i : Nat)
            (h1 : i < (chunk_text env text (chunk_budget env text)).length)
            (h2 : i < results.length),
          _summarize_chunk env
              ((chunk_text env text (chunk_budget env text)).get ⟨i, h1⟩)
              bn lang = some (results.get ⟨i, h2⟩)) ∧
        merged = String.join (results.map (fun r => joinBullets r.2 ++ "\n")) := by
  constructor
  · simp only [summarize_multiple_chunks_arrival, _summarize_multiple_chunks]
    cases hbn : BULLET_NUM_MAPPING (chunk_budget env text) lvl with
    | none => rfl
    | some bn =>
      dsimp only
      have hcov' : ∀ j, j < ((chunk_text env text (chunk_budget env text)).map
          (fun chunk => _summarize_chunk env chunk bn lang)).length →
          j ∈ order := by
        intro j hj
        rw [List.length_map] at hj
        exact hcov j hj
      rw [gatherArrival_eq_gather _ _ hcov']
  · intro bn merged hbn hmerged
    simp only [_summarize_multiple_chunks, hbn] at hmerged
    cases hg : gather ((chunk_text env text (chunk_budget env text)).map
        (fun chunk => _summarize_chunk env chunk bn lang)) with
    | none => rw [hg] at hmerged; exact absurd hmerged (by simp)
    | some results =>
      rw [hg] at hmerged
      obtain ⟨hlen, hget⟩ := gather_some _ _ hg
      rw [List.length_map] at hlen
      refine ⟨results, hlen, ?_, ?_⟩
      · intro i hi hr
        have hx := hget i (by rw [List.length_map]; exact hi) hr
        simp only [List.get_eq_getElem, List.getElem_map] at hx
        simp only [List.get_eq_getElem]
        exact hx
      · simp only [Option.some.injEq] at hmerged
        rw [← hmerged, merge_chunk_summaries_eq]

/-- C1 witness: a concrete single-chunk run where the completion order covers
every index. -/
theorem C1_chunk_order_preserved_witness :
    summarize_multiple_chunks_arrival envA "t" SummarizationLevelEnum.MEDIUM
        (some "English") [0] =
      _summarize_multiple_chunks envA "t" SummarizationLevelEnum.MEDIUM
        (some "English") :=
  (C1_chunk_order_preserved envA "t" SummarizationLevelEnum.MEDIUM
    (some "English") [0] (by decide)).1
